import Mathlib

/-!
Shallow embedding of the RDT transport engine in `ReliableSocket.cpp`
(connection handshake, stop-and-wait delivery, RTT estimation, teardown).

Each public operation of the C++ class is modelled as a pure function from
the connection state and a trace of network events (one event per blocking
`recv`: either a timeout or an arriving segment) to the final connection
state plus the observable actions relevant to the specification claims
(configured receive timeouts, acknowledgements sent, loop outcome).

Numeric modelling notes.
The C++ code mixes `uint32_t` fields with `double` arithmetic.  At the
magnitudes reachable here (estimated_rtt below 10^6) the doubles involved
are exact or within 2^-40 relative error of the exact rational value, and
none of the truncations or comparisons in the source sit on an affected
boundary, so the following exact integer forms are faithful:
  `(int)(1.2 * r)`                  = `6 * r / 5`   (Nat division)
  `(uint32_t)(r * 1.5)`             = `3 * r / 2`
  `min((int)(r * 1.5), 500)`        = `min (3 * r / 2) 500`
  `(int)(.875 * r + .125 * s_sec)`  = `(7000 * r + s_ms) / 8000`
where `s_ms` is the measured RTT sample in milliseconds and the last line
reflects that `sample_rtt.count()` in the source is a value in seconds
(`std::chrono::duration<double>` has ratio 1), i.e. `s_ms / 1000`.
RTT samples are modelled at millisecond granularity; sub-millisecond parts
cannot move any truncation or comparison in the source across a boundary.

The header `ReliableSocket.h` is not part of the sources.  Whatever it
fixes is modelled from the spec: segment types are CONN, DATA, ACK, CLOSE
(four distinct one-byte tags, numeric encoding an implementation choice,
kept as parameters `connTag` / `ackTag` where the raw byte matters), the
fixed header is 1 + 4 + 4 = 9 bytes, and the integer header fields travel
big-endian.  `EWOULDBLOCK` is an OS constant kept as a parameter `ewb`;
`recv` returns -1 on timeout, which differs from every value of `ewb`.
-/

namespace RDT

/-- Segment types of the wire protocol. Modelled from the spec:
`ReliableSocket.h` (absent from the sources) defines the enum with tags
CONN, DATA, ACK, CLOSE. -/
inductive RDTType
  | conn
  | ack
  | data
  | close
deriving DecidableEq, Repr

/-- Connection states of `ReliableSocket`. -/
inductive ConnState
  | init
  | established
  | closed
deriving DecidableEq, Repr

/-- The per-session state of a `ReliableSocket` object (the fields the
engine reads and writes). -/
structure Conn where
  sequence_number : Nat
  expected_sequence_number : Nat
  estimated_rtt : Nat
  dev_rtt : Nat
  state : ConnState
deriving DecidableEq, Repr

/-- State set up by the `ReliableSocket` constructor. -/
def initialConn : Conn :=
  { sequence_number := 0
    expected_sequence_number := 0
    estimated_rtt := 100
    dev_rtt := 10
    state := ConnState.init }

/-- `(int)(1.2 * estimated_rtt)` — the RTT backoff applied on a timeout in
`send_data` and `close_connection` (exact for the reachable range). -/
def inflateRtt (r : Nat) : Nat := 6 * r / 5

/-- `(uint32_t)(estimated_rtt * 1.5)` — the uncapped timeout value passed to
`set_timeout_length` in `accept_connection`, `connect_to_remote` and
`close_connection`. -/
def timeoutUncapped (r : Nat) : Nat := 3 * r / 2

/-- `min((int)(estimated_rtt * 1.5), 500)` — the capped timeout value used
only in `send_data`. -/
def timeoutCapped (r : Nat) : Nat := min (3 * r / 2) 500

/-- The RTT update `send_data` performs on a matching ACK:
`min((int)(.875 * estimated_rtt + .125 * sample_rtt.count()), 500)`.
`sample_rtt.count()` is in seconds, hence the sample in milliseconds is
divided by 1000; the truncated sum equals `(7000 r + s) / 8000`. -/
def rttOnAckCode (r : Nat) (sample_ms : Nat) : Nat :=
  min ((7000 * r + sample_ms) / 8000) 500

/-- The RTT update as the spec words it (for comparison with
`rttOnAckCode`): `min(round(0.875 x estimated_rtt + 0.125 x sample), 500)`
with the sample in milliseconds. -/
def rttOnAckSpec (r : Nat) (sample_ms : Nat) : Nat :=
  min (round ((7 * (r : ℚ)) / 8 + (sample_ms : ℚ) / 8)).toNat 500

/-- Loop outcomes across the modelled procedures. -/
inductive PResult
  | established
  | success
  | closedViaClose
  | closedViaAck
  | exhausted
  | fatalMaxAttempts
  | fatalInvalidState
  | fatalUnexpectedType
  | noopReturn
  | outOfTrace
deriving DecidableEq, Repr

/-! ### Byte-order model (segment codec, `htonl` / `ntohl`) -/

/-- Byte swap of a 32-bit value. -/
def bswap32 (x : Nat) : Nat :=
  (x % 256) * 2 ^ 24 + (x / 2 ^ 8 % 256) * 2 ^ 16 +
    (x / 2 ^ 16 % 256) * 2 ^ 8 + (x / 2 ^ 24 % 256)

/-- Host endianness. -/
inductive Endianness
  | big
  | little
deriving DecidableEq, Repr

/-- The big-endian (network order) reading of the bytes of a stored 32-bit
host value. The same permutation maps the network-order value carried by
arriving wire bytes to the value the host reads from the raw field. -/
def toNetOrder : Endianness → Nat → Nat
  | Endianness.big, x => x % 2 ^ 32
  | Endianness.little, x => bswap32 (x % 2 ^ 32)

/-- `htonl` of the host. -/
def htonl (e : Endianness) (x : Nat) : Nat := toNetOrder e x

/-- `ntohl` of the host (same byte permutation as `htonl`). -/
def ntohl (e : Endianness) (x : Nat) : Nat := toNetOrder e x

/-- The raw `uint32_t` the host reads from a received header field whose
wire bytes carry `w` in network order. -/
def rawRead (e : Endianness) (w : Nat) : Nat := toNetOrder e w

/-- The `ack_number` value stored by the in-order branch of `receive_data`:
`send_hdr->ack_number = htonl(hdr->sequence_number)` where
`hdr->sequence_number` is the raw, undecoded read of the received field. -/
def inOrderAckStored (e : Endianness) (wireSeq : Nat) : Nat :=
  htonl e (rawRead e wireSeq)

/-- The network-order reading of the in-order ACK's `ack_number` as it
leaves the host. -/
def inOrderAckWire (e : Endianness) (wireSeq : Nat) : Nat :=
  toNetOrder e (inOrderAckStored e wireSeq)

/-- The `ack_number` value stored by the duplicate branch of
`receive_data`: `send_hdr->ack_number = ntohl(hdr->sequence_number)`. -/
def dupAckStored (e : Endianness) (wireSeq : Nat) : Nat :=
  ntohl e (rawRead e wireSeq)

/-- The network-order reading of the duplicate-branch ACK's `ack_number`
as it leaves the host. -/
def dupAckWire (e : Endianness) (wireSeq : Nat) : Nat :=
  toNetOrder e (dupAckStored e wireSeq)

/-! ### `send_data` -/

/-- One blocking `recv` outcome inside the `send_data` loop: a timeout, or
a segment with its type, the raw `ack_number` read (the comparison in the
source uses the field undecoded), and the elapsed time of the round trip
in milliseconds. -/
inductive SdEvent
  | timeout
  | recv (t : RDTType) (ackRaw : Nat) (sample_ms : Nat)
deriving DecidableEq, Repr

/-- Output of `send_data`: final connection, outcome, every value passed
to `set_timeout_length`, and the final value of the `attempts` counter. -/
structure SdOut where
  conn : Conn
  result : PResult
  touts : List Nat
  attempts : Nat
deriving DecidableEq, Repr

/-- The retransmission loop of `send_data`.  Faithful points: the fatal
check is `attempts > 10`; `attempts` is incremented only inside the
`recv(...) > 0` branch, never on a timeout; a timeout inflates the RTT and
re-arms the capped timeout; a matching ACK (raw `ack_number` equal to the
host `sequence_number` counter) updates the RTT, increments the sequence
number and returns. -/
def sendDataLoop (c : Conn) (attempts : Nat) (touts : List Nat) :
    List SdEvent → SdOut
  | [] =>
    if 10 < attempts then
      { conn := c, result := PResult.fatalMaxAttempts, touts := touts,
        attempts := attempts }
    else
      { conn := c, result := PResult.outOfTrace, touts := touts,
        attempts := attempts }
  | SdEvent.timeout :: tr =>
    if 10 < attempts then
      { conn := c, result := PResult.fatalMaxAttempts, touts := touts,
        attempts := attempts }
    else
      sendDataLoop { c with estimated_rtt := inflateRtt c.estimated_rtt }
        attempts (touts ++ [timeoutCapped (inflateRtt c.estimated_rtt)]) tr
  | SdEvent.recv t ackRaw sample_ms :: tr =>
    if 10 < attempts then
      { conn := c, result := PResult.fatalMaxAttempts, touts := touts,
        attempts := attempts }
    else
      if t = RDTType.ack ∧ c.sequence_number = ackRaw then
        { conn :=
            { c with
              estimated_rtt := rttOnAckCode c.estimated_rtt sample_ms
              sequence_number := c.sequence_number + 1 }
          result := PResult.success
          touts := touts
          attempts := attempts + 1 }
      else
        sendDataLoop c (attempts + 1) touts tr

/-- `ReliableSocket::send_data`: gated on ESTABLISHED (otherwise a no-op
returning), arms the capped timeout once, then runs the loop. -/
def send_data (c : Conn) (tr : List SdEvent) : SdOut :=
  if c.state = ConnState.established then
    sendDataLoop c 0 [timeoutCapped c.estimated_rtt] tr
  else
    { conn := c, result := PResult.noopReturn, touts := [], attempts := 0 }

/-! ### `connect_to_remote` -/

/-- One blocking `recv` outcome inside the `connect_to_remote` loop: a
timeout (`recv` returns -1) or a datagram of `n` bytes.  The received
bytes themselves are irrelevant to the branch taken: the source wipes the
buffer with `memset` before testing `rec_hdr->type`, so the tested byte is
always 0. -/
inductive ConnEvent
  | timeout
  | recvBytes (n : Nat)
deriving DecidableEq, Repr

/-- Output of a handshake procedure. -/
structure HsOut where
  conn : Conn
  result : PResult
  touts : List Nat
deriving DecidableEq, Repr

/-- The retry loop of `connect_to_remote`, parameterised by the OS value
of `EWOULDBLOCK` (`ewb`) and the numeric encoding of `RDT_CONN`
(`connTag`, modelled from the spec since the header is absent).  Faithful
points: the fatal check is `attempts >= 10` before the increment; each
iteration re-sends CONN and arms the uncapped timeout; the branch guard
`recv(...) != EWOULDBLOCK` is entered on a timeout as well (as -1 differs
from `ewb`); inside the branch the buffer has been wiped, so the tested
type byte is 0 and the connection is established exactly when
`connTag = 0`; establishment increments `sequence_number` and sends the
final ACK; the RTT estimate is never touched. -/
def connectLoop (ewb connTag : Nat) (c : Conn) (attempts : Nat)
    (touts : List Nat) : List ConnEvent → HsOut
  | [] =>
    if 10 ≤ attempts then
      { conn := c, result := PResult.fatalMaxAttempts, touts := touts }
    else
      { conn := c, result := PResult.outOfTrace,
        touts := touts ++ [timeoutUncapped c.estimated_rtt] }
  | ConnEvent.timeout :: tr =>
    if 10 ≤ attempts then
      { conn := c, result := PResult.fatalMaxAttempts, touts := touts }
    else
      if connTag = 0 then
        { conn :=
            { c with
              state := ConnState.established
              sequence_number := c.sequence_number + 1 }
          result := PResult.established
          touts := touts ++ [timeoutUncapped c.estimated_rtt] }
      else
        connectLoop ewb connTag c (attempts + 1)
          (touts ++ [timeoutUncapped c.estimated_rtt]) tr
  | ConnEvent.recvBytes n :: tr =>
    if 10 ≤ attempts then
      { conn := c, result := PResult.fatalMaxAttempts, touts := touts }
    else
      if n = ewb then
        connectLoop ewb connTag c (attempts + 1)
          (touts ++ [timeoutUncapped c.estimated_rtt]) tr
      else
        if connTag = 0 then
          { conn :=
              { c with
                state := ConnState.established
                sequence_number := c.sequence_number + 1 }
            result := PResult.established
            touts := touts ++ [timeoutUncapped c.estimated_rtt] }
        else
          connectLoop ewb connTag c (attempts + 1)
            (touts ++ [timeoutUncapped c.estimated_rtt]) tr

/-- `ReliableSocket::connect_to_remote`: on a non-INIT connection it
prints a diagnostic and returns (it does not abort); otherwise it runs the
retry loop. -/
def connect_to_remote (ewb connTag : Nat) (c : Conn) (tr : List ConnEvent) :
    HsOut :=
  if c.state = ConnState.init then
    connectLoop ewb connTag c 0 [] tr
  else
    { conn := c, result := PResult.noopReturn, touts := [] }

/-! ### `accept_connection` -/

/-- One blocking `recv` outcome inside the `accept_connection` echo loop:
a timeout, or a datagram of `n` bytes whose raw type byte is `tag`. -/
inductive AccEvent
  | timeout
  | recvBytes (n tag : Nat)
deriving DecidableEq, Repr

/-- The echo loop of `accept_connection`, parameterised by `ewb`
(`EWOULDBLOCK`) and `ackTag` (the numeric encoding of `RDT_ACK`, modelled
from the spec since the header is absent).  Faithful points: the fatal
check is `attempts > 10` before the increment; each iteration re-sends the
CONN echo and arms the uncapped timeout; the guard
`recv(...) != EWOULDBLOCK` is entered on a timeout too, and the first
statement of the branch resets `attempts` to 0; on a timeout the buffer
was wiped before `recv`, so the tested type byte is 0; establishment
increments `expected_sequence_number` and sets the timeout to 0
(block-forever). -/
def acceptLoop (ewb ackTag : Nat) (c : Conn) (attempts : Nat)
    (touts : List Nat) : List AccEvent → HsOut
  | [] =>
    if 10 < attempts then
      { conn := c, result := PResult.fatalMaxAttempts, touts := touts }
    else
      { conn := c, result := PResult.outOfTrace,
        touts := touts ++ [timeoutUncapped c.estimated_rtt] }
  | AccEvent.timeout :: tr =>
    if 10 < attempts then
      { conn := c, result := PResult.fatalMaxAttempts, touts := touts }
    else
      if ackTag = 0 then
        { conn :=
            { c with
              state := ConnState.established
              expected_sequence_number := c.expected_sequence_number + 1 }
          result := PResult.established
          touts := touts ++ [timeoutUncapped c.estimated_rtt, 0] }
      else
        acceptLoop ewb ackTag c 0
          (touts ++ [timeoutUncapped c.estimated_rtt]) tr
  | AccEvent.recvBytes n tag :: tr =>
    if 10 < attempts then
      { conn := c, result := PResult.fatalMaxAttempts, touts := touts }
    else
      if n = ewb then
        acceptLoop ewb ackTag c (attempts + 1)
          (touts ++ [timeoutUncapped c.estimated_rtt]) tr
      else
        if tag = ackTag then
          { conn :=
              { c with
                state := ConnState.established
                expected_sequence_number := c.expected_sequence_number + 1 }
            result := PResult.established
            touts := touts ++ [timeoutUncapped c.estimated_rtt, 0] }
        else
          acceptLoop ewb ackTag c 0
            (touts ++ [timeoutUncapped c.estimated_rtt]) tr

/-- `ReliableSocket::accept_connection`: aborts on a non-INIT connection;
blocks unbounded on the first inbound segment (`firstTag` is its raw type
byte) and aborts unless it is a CONN; then runs the echo loop.  `connTag`
is the numeric encoding of `RDT_CONN`. -/
def accept_connection (ewb connTag ackTag : Nat) (c : Conn)
    (firstTag : Nat) (tr : List AccEvent) : HsOut :=
  if c.state = ConnState.init then
    if firstTag = connTag then
      acceptLoop ewb ackTag c 0 [] tr
    else
      { conn := c, result := PResult.fatalUnexpectedType, touts := [] }
  else
    { conn := c, result := PResult.fatalInvalidState, touts := [] }

/-! ### `close_connection` -/

/-- One blocking `recv` outcome inside the `close_connection` loop: a
timeout (`recv_count == -1`) or a segment of the given type (here the type
byte is read from the really received bytes). -/
inductive ClEvent
  | timeout
  | recv (t : RDTType)
deriving DecidableEq, Repr

/-- Output of `close_connection`: final connection, outcome, configured
timeouts, number of CLOSE transmissions, and whether the endpoint was
released (`close(sock_fd)` reached). -/
structure CloseOut where
  conn : Conn
  result : PResult
  touts : List Nat
  sends : Nat
  released : Bool
deriving DecidableEq, Repr

/-- The loop of `close_connection`.  Faithful points: the guard is
`timeouts > 5` (so up to 6 iterations run) and `timeouts` is incremented
every iteration; each iteration sends CLOSE; a timeout inflates the RTT
and re-arms the uncapped timeout; a received CLOSE is answered with an ACK
and sets CLOSED; a received ACK sets CLOSED; a received DATA is
re-acknowledged and the loop continues; any other type just continues;
`close(sock_fd)` runs after the loop on every completed path. -/
def closeLoop (c : Conn) (timeouts : Nat) (touts : List Nat) (sends : Nat) :
    List ClEvent → CloseOut
  | [] =>
    if 5 < timeouts then
      { conn := c, result := PResult.exhausted, touts := touts,
        sends := sends, released := true }
    else
      { conn := c, result := PResult.outOfTrace, touts := touts,
        sends := sends + 1, released := false }
  | ClEvent.timeout :: tr =>
    if 5 < timeouts then
      { conn := c, result := PResult.exhausted, touts := touts,
        sends := sends, released := true }
    else
      closeLoop { c with estimated_rtt := inflateRtt c.estimated_rtt }
        (timeouts + 1)
        (touts ++ [timeoutUncapped (inflateRtt c.estimated_rtt)])
        (sends + 1) tr
  | ClEvent.recv t :: tr =>
    if 5 < timeouts then
      { conn := c, result := PResult.exhausted, touts := touts,
        sends := sends, released := true }
    else
      match t with
      | RDTType.close =>
        { conn := { c with state := ConnState.closed }
          result := PResult.closedViaClose
          touts := touts, sends := sends + 1, released := true }
      | RDTType.ack =>
        { conn := { c with state := ConnState.closed }
          result := PResult.closedViaAck
          touts := touts, sends := sends + 1, released := true }
      | RDTType.data =>
        closeLoop c (timeouts + 1) touts (sends + 1) tr
      | RDTType.conn =>
        closeLoop c (timeouts + 1) touts (sends + 1) tr

/-- `ReliableSocket::close_connection`: arms the uncapped timeout once and
runs the loop (there is no state gate in the source). -/
def close_connection (c : Conn) (tr : List ClEvent) : CloseOut :=
  closeLoop c 0 [timeoutUncapped c.estimated_rtt] 0 tr

/-! ### `receive_data` -/

/-- One blocking `recv` outcome inside the `receive_data` loop: a timeout
(`recv_count < 0`, fatal in the source) or a segment with its type, its
decoded sequence number (`ntohl(hdr->sequence_number)`, the value the
comparisons use) and its total byte count `recv_count`. -/
inductive RcvEvent
  | timeout
  | seg (t : RDTType) (sq len : Nat)
deriving DecidableEq, Repr

/-- Outcome of `receive_data`. -/
inductive RcvResult
  | delivered (n : Nat)
  | closeSignal
  | fatalRecv
  | noopReturn
  | outOfTrace
deriving DecidableEq, Repr

/-- Output of `receive_data`: final connection, outcome, and the
`ack_number` values (as stored in the header field) of the ACKs sent, in
order. -/
structure RcvOut where
  conn : Conn
  result : RcvResult
  acks : List Nat
deriving DecidableEq, Repr

/-- Header size in bytes. Modelled from the spec: the fixed header is a
1-byte type plus two 4-byte fields (`ReliableSocket.h` is absent). -/
def HDR_SIZE : Nat := 9

/-- The wait loop of `receive_data`: an in-order DATA segment
(`sequence_number == expected_sequence_number`) is acknowledged with its
own sequence number, delivered (`recv_count - sizeof(RDTHeader)` bytes)
and increments `expected_sequence_number`; a DATA segment with
`0 < sequence_number < expected_sequence_number` is re-acknowledged with
its own sequence number and the wait continues; a CLOSE returns 0; any
other segment is ignored. -/
def receiveLoop (c : Conn) : List RcvEvent → RcvOut
  | [] => { conn := c, result := RcvResult.outOfTrace, acks := [] }
  | RcvEvent.timeout :: _ =>
    { conn := c, result := RcvResult.fatalRecv, acks := [] }
  | RcvEvent.seg t sq len :: tr =>
    if t = RDTType.data ∧ c.expected_sequence_number = sq then
      { conn :=
          { c with
            expected_sequence_number := c.expected_sequence_number + 1 }
        result := RcvResult.delivered (len - HDR_SIZE)
        acks := [sq] }
    else
      if t = RDTType.data ∧ sq < c.expected_sequence_number ∧ 0 < sq then
        let o := receiveLoop c tr
        { conn := o.conn, result := o.result, acks := sq :: o.acks }
      else
        if t = RDTType.close then
          { conn := c, result := RcvResult.closeSignal, acks := [] }
        else
          receiveLoop c tr

/-- `ReliableSocket::receive_data`: gated on ESTABLISHED (otherwise a
no-op returning 0), then the wait loop. -/
def receive_data (c : Conn) (tr : List RcvEvent) : RcvOut :=
  if c.state = ConnState.established then
    receiveLoop c tr
  else
    { conn := c, result := RcvResult.noopReturn, acks := [] }

/-! ### Concrete connection states used by the claim theorems -/

/-- The initiator's connection right after a successful handshake. -/
def senderConn : Conn :=
  { sequence_number := 1
    expected_sequence_number := 0
    estimated_rtt := 100
    dev_rtt := 10
    state := ConnState.established }

/-- A receiver connection after the handshake and four in-order
deliveries. -/
def recvConn : Conn :=
  { sequence_number := 0
    expected_sequence_number := 5
    estimated_rtt := 100
    dev_rtt := 10
    state := ConnState.established }

/-- A `send_data` run with nine consecutive timeouts and then the matching
ACK: the backoff inflates the estimate to 511 and the matching ACK lowers
it to 447. -/
def backoffTrace : List SdEvent :=
  List.replicate 9 SdEvent.timeout ++ [SdEvent.recv RDTType.ack 1 50]

/-- Connection state after `send_data senderConn backoffTrace`. -/
def connAfterBackoff : Conn := (send_data senderConn backoffTrace).conn

/-! ### Helper lemmas -/

/-- On a pure-timeout trace the `send_data` loop never changes `attempts`
(the increment sits inside the `recv(...) > 0` branch), so the fatal check
never fires. -/
theorem sendDataLoop_all_timeouts (n : Nat) : ∀ (c : Conn) (touts : List Nat),
    (sendDataLoop c 0 touts (List.replicate n SdEvent.timeout)).result =
      PResult.outOfTrace ∧
    (sendDataLoop c 0 touts (List.replicate n SdEvent.timeout)).attempts = 0 := by
  induction n with
  | zero => intro c touts; exact ⟨rfl, rfl⟩
  | succ k ih =>
    intro c touts
    rw [List.replicate_succ]
    simp only [sendDataLoop]
    rw [if_neg (by omega)]
    exact ih _ _

/-- Every value `send_data`'s loop passes to `set_timeout_length` is
capped at 500. -/
theorem sendDataLoop_touts_le (tr : List SdEvent) :
    ∀ (c : Conn) (a : Nat) (touts : List Nat),
    (∀ t ∈ touts, t ≤ 500) →
    ∀ t ∈ (sendDataLoop c a touts tr).touts, t ≤ 500 := by
  induction tr with
  | nil =>
    intro c a touts h t ht
    simp only [sendDataLoop] at ht
    split at ht <;> exact h t ht
  | cons e tr ih =>
    intro c a touts h
    cases e with
    | timeout =>
      intro t ht
      simp only [sendDataLoop] at ht
      split at ht
      · exact h t ht
      · refine ih _ _ _ ?_ t ht
        intro u hu
        rcases List.mem_append.mp hu with h1 | h1
        · exact h u h1
        · rcases List.mem_singleton.mp h1 with rfl
          exact min_le_right _ _
    | recv ty ackRaw s =>
      intro t ht
      simp only [sendDataLoop] at ht
      split at ht
      · exact h t ht
      · split at ht
        · exact h t ht
        · exact ih _ _ _ h t ht

/-- The `connect_to_remote` loop never modifies `estimated_rtt`,
`expected_sequence_number`, or the socket timeout basis, and it increments
`sequence_number` at most once. -/
theorem connectLoop_conn (tr : List ConnEvent) :
    ∀ (ewb ct : Nat) (c : Conn) (a : Nat) (touts : List Nat),
    (connectLoop ewb ct c a touts tr).conn.estimated_rtt = c.estimated_rtt ∧
    (connectLoop ewb ct c a touts tr).conn.expected_sequence_number =
      c.expected_sequence_number ∧
    c.sequence_number ≤ (connectLoop ewb ct c a touts tr).conn.sequence_number ∧
    (connectLoop ewb ct c a touts tr).conn.sequence_number ≤
      c.sequence_number + 1 := by
  induction tr with
  | nil =>
    intro ewb ct c a touts
    simp only [connectLoop]
    split <;> exact ⟨rfl, rfl, Nat.le_refl _, Nat.le_succ _⟩
  | cons e tr ih =>
    intro ewb ct c a touts
    cases e with
    | timeout =>
      simp only [connectLoop]
      split
      · exact ⟨rfl, rfl, Nat.le_refl _, Nat.le_succ _⟩
      · split
        · exact ⟨rfl, rfl, Nat.le_succ _, Nat.le_refl _⟩
        · exact ih _ _ _ _ _
    | recvBytes n =>
      simp only [connectLoop]
      split
      · exact ⟨rfl, rfl, Nat.le_refl _, Nat.le_succ _⟩
      · split
        · exact ih _ _ _ _ _
        · split
          · exact ⟨rfl, rfl, Nat.le_succ _, Nat.le_refl _⟩
          · exact ih _ _ _ _ _

/-- Every timeout the `connect_to_remote` loop configures equals
`(uint32_t)(estimated_rtt * 1.5)` for the unchanged entry estimate. -/
theorem connectLoop_touts (tr : List ConnEvent) :
    ∀ (ewb ct : Nat) (c : Conn) (a : Nat) (touts : List Nat),
    (∀ t ∈ touts, t = timeoutUncapped c.estimated_rtt) →
    ∀ t ∈ (connectLoop ewb ct c a touts tr).touts,
      t = timeoutUncapped c.estimated_rtt := by
  induction tr with
  | nil =>
    intro ewb ct c a touts h t ht
    simp only [connectLoop] at ht
    split at ht
    · exact h t ht
    · rcases List.mem_append.mp ht with h1 | h1
      · exact h t h1
      · rcases List.mem_singleton.mp h1 with rfl; rfl
  | cons e tr ih =>
    intro ewb ct c a touts h t ht
    have hstep : ∀ u ∈ touts ++ [timeoutUncapped c.estimated_rtt],
        u = timeoutUncapped c.estimated_rtt := by
      intro u hu
      rcases List.mem_append.mp hu with h1 | h1
      · exact h u h1
      · rcases List.mem_singleton.mp h1 with rfl; rfl
    cases e with
    | timeout =>
      simp only [connectLoop] at ht
      split at ht
      · exact h t ht
      · split at ht
        · exact hstep t ht
        · exact ih _ _ _ _ _ hstep t ht
    | recvBytes n =>
      simp only [connectLoop] at ht
      split at ht
      · exact h t ht
      · split at ht
        · exact ih _ _ _ _ _ hstep t ht
        · split at ht
          · exact hstep t ht
          · exact ih _ _ _ _ _ hstep t ht

/-- Every timeout the `accept_connection` loop configures is either
`(uint32_t)(estimated_rtt * 1.5)` for the unchanged entry estimate or the
final block-forever value 0. -/
theorem acceptLoop_touts (tr : List AccEvent) :
    ∀ (ewb atag : Nat) (c : Conn) (a : Nat) (touts : List Nat),
    (∀ t ∈ touts, t = timeoutUncapped c.estimated_rtt ∨ t = 0) →
    ∀ t ∈ (acceptLoop ewb atag c a touts tr).touts,
      t = timeoutUncapped c.estimated_rtt ∨ t = 0 := by
  induction tr with
  | nil =>
    intro ewb atag c a touts h t ht
    simp only [acceptLoop] at ht
    split at ht
    · exact h t ht
    · rcases List.mem_append.mp ht with h1 | h1
      · exact h t h1
      · rcases List.mem_singleton.mp h1 with rfl; exact Or.inl rfl
  | cons e tr ih =>
    intro ewb atag c a touts h t ht
    have hstep : ∀ u ∈ touts ++ [timeoutUncapped c.estimated_rtt],
        u = timeoutUncapped c.estimated_rtt ∨ u = 0 := by
      intro u hu
      rcases List.mem_append.mp hu with h1 | h1
      · exact h u h1
      · rcases List.mem_singleton.mp h1 with rfl; exact Or.inl rfl
    have hfin : ∀ u ∈ touts ++ [timeoutUncapped c.estimated_rtt, 0],
        u = timeoutUncapped c.estimated_rtt ∨ u = 0 := by
      intro u hu
      rcases List.mem_append.mp hu with h1 | h1
      · exact h u h1
      · rcases List.mem_cons.mp h1 with rfl | h2
        · exact Or.inl rfl
        · rcases List.mem_singleton.mp h2 with rfl; exact Or.inr rfl
    cases e with
    | timeout =>
      simp only [acceptLoop] at ht
      split at ht
      · exact h t ht
      · split at ht
        · exact hfin t ht
        · exact ih _ _ _ _ _ hstep t ht
    | recvBytes n tag =>
      simp only [acceptLoop] at ht
      split at ht
      · exact h t ht
      · split at ht
        · exact ih _ _ _ _ _ hstep t ht
        · split at ht
          · exact hfin t ht
          · exact ih _ _ _ _ _ hstep t ht

/-- The first timeout `close_connection` configures survives at the head
of the recorded list. -/
theorem closeLoop_touts_head (tr : List ClEvent) :
    ∀ (c : Conn) (n sends x : Nat) (rest : List Nat),
    (closeLoop c n (x :: rest) sends tr).touts.head? = some x := by
  induction tr with
  | nil =>
    intro c n sends x rest
    simp only [closeLoop]
    split <;> rfl
  | cons e tr ih =>
    intro c n sends x rest
    cases e with
    | timeout =>
      simp only [closeLoop]
      split
      · rfl
      · rw [List.cons_append]
        exact ih _ _ _ _ _
    | recv t =>
      simp only [closeLoop]
      split
      · rfl
      · cases t
        · exact ih _ _ _ _ _
        · rfl
        · exact ih _ _ _ _ _
        · rfl

/-! ### Claim theorems -/

/-- Claim C1, code evaluated at the failing input: on a little-endian host
the ACK built by the in-order branch of `receive_data` (line 334,
`htonl(hdr->sequence_number)` applied to the raw, already network-order
field) and the one built by the duplicate branch (line 356,
`ntohl(hdr->sequence_number)`) both leave the host with `ack_number` in
host byte order: for an inbound DATA segment with sequence number 1 the
wire bytes read 16777216 in network order instead of 1.  The invariant
only holds on a big-endian host, refuting `regardless of host
endianness`. -/
theorem c1_ack_wire_byte_order :
    inOrderAckWire Endianness.little 1 = 16777216 ∧
    dupAckWire Endianness.little 1 = 16777216 ∧
    inOrderAckWire Endianness.little 1 ≠ 1 ∧
    inOrderAckWire Endianness.big 1 = 1 := by decide

/-- Claim C2, code evaluated at the failing input: in `send_data` the
`attempts` counter is incremented only when `recv` returns a segment,
never on a timeout, so when every wait ends in a timeout the loop
retransmits forever: after any number `n` of consecutive timeouts the run
is still in the loop with `attempts = 0` and the fatal
`TransmissionFailed` exit is unreachable, contrary to the claimed
10-attempt budget. -/
theorem c2_all_timeouts_never_fatal (n : Nat) :
    (send_data senderConn (List.replicate n SdEvent.timeout)).result =
      PResult.outOfTrace ∧
    (send_data senderConn (List.replicate n SdEvent.timeout)).attempts = 0 := by
  unfold send_data
  have hs : senderConn.state = ConnState.established := rfl
  rw [if_pos hs]
  exact sendDataLoop_all_timeouts n senderConn _

/-- Claim C3, code evaluated at the failing input: with
`estimated_rtt = 100` and a measured round trip of 100 ms, `send_data`
stores `(int)(.875 * 100 + .125 * sample_rtt.count())` where
`sample_rtt.count()` is 0.1 (seconds, not milliseconds), truncated to 87,
whereas the claimed formula `min(round(0.875 x 100 + 0.125 x 100), 500)`
gives 100.  The sequence-number increment and the successful return do
happen as claimed. -/
theorem c3_rtt_sample_seconds_truncated :
    (send_data senderConn [SdEvent.recv RDTType.ack 1 100]).conn.estimated_rtt
        = 87 ∧
    (send_data senderConn [SdEvent.recv RDTType.ack 1 100]).result =
      PResult.success ∧
    (send_data senderConn [SdEvent.recv RDTType.ack 1 100]).conn.sequence_number
        = 2 ∧
    rttOnAckSpec 100 100 = 100 := by
  refine ⟨by decide, by decide, by decide, ?_⟩
  unfold rttOnAckSpec
  norm_num [round_eq]
  decide

/-- Claim C4, counterexample: from the reachable state reached by a
`send_data` call that saw nine timeouts before its matching ACK
(`estimated_rtt = 447`), `close_connection` configures its first wait with
`(uint32_t)(447 * 1.5) = 670` ms — a wait above 500 ms, contradicting the
claim that no wait is ever configured above 500 ms. -/
theorem c4_counterexample :
    (close_connection connAfterBackoff [ClEvent.timeout]).touts.all
        (fun t => t ≤ 500) = false := by decide

/-- Claim C4 as amended: only `send_data` caps its timeouts with
`min((int)(estimated_rtt * 1.5), 500)`; `connect_to_remote` and the
`accept_connection` echo loop configure `(uint32_t)(estimated_rtt * 1.5)`
uncapped (plus accept's final block-forever 0), `close_connection` starts
at the uncapped `(uint32_t)(estimated_rtt * 1.5)`, and a
`close_connection` wait can exceed 500 ms after RTT inflation. -/
theorem c4_amended :
    (∀ (c : Conn) (tr : List SdEvent), ∀ t ∈ (send_data c tr).touts, t ≤ 500) ∧
    (∀ (ewb connTag : Nat) (c : Conn) (tr : List ConnEvent),
      ∀ t ∈ (connect_to_remote ewb connTag c tr).touts,
        t = timeoutUncapped c.estimated_rtt) ∧
    (∀ (ewb connTag ackTag firstTag : Nat) (c : Conn) (tr : List AccEvent),
      ∀ t ∈ (accept_connection ewb connTag ackTag c firstTag tr).touts,
        t = timeoutUncapped c.estimated_rtt ∨ t = 0) ∧
    (∀ (c : Conn) (tr : List ClEvent),
      (close_connection c tr).touts.head? =
        some (timeoutUncapped c.estimated_rtt)) ∧
    (close_connection connAfterBackoff [ClEvent.timeout]).touts.all
        (fun t => t ≤ 500) = false := by
  refine ⟨?_, ?_, ?_, ?_, by decide⟩
  · intro c tr t ht
    unfold send_data at ht
    split at ht
    · refine sendDataLoop_touts_le tr c 0 _ ?_ t ht
      intro u hu
      rcases List.mem_singleton.mp hu with rfl
      exact min_le_right _ _
    · simp at ht
  · intro ewb connTag c tr t ht
    unfold connect_to_remote at ht
    split at ht
    · exact connectLoop_touts tr ewb connTag c 0 [] (by intro u hu; simp at hu) t ht
    · simp at ht
  · intro ewb connTag ackTag firstTag c tr t ht
    unfold accept_connection at ht
    split at ht
    · split at ht
      · exact acceptLoop_touts tr ewb ackTag c 0 []
          (by intro u hu; simp at hu) t ht
      · simp at ht
    · simp at ht
  · intro c tr
    exact closeLoop_touts_head tr c 0 0 _ []

/-- Witness for `c4_amended` at a concrete input: the first timeout a
concrete `send_data` run configures is 150 ms, and the theorem bounds it
by 500. -/
theorem c4_amended_witness :
    150 ∈ (send_data senderConn [SdEvent.timeout]).touts ∧ 150 ≤ 500 :=
  ⟨by decide, c4_amended.1 senderConn [SdEvent.timeout] 150 (by decide)⟩

/-- Claim C5, counterexample (negation at a concrete input): in
`connect_to_remote` from the freshly constructed connection, a wait ends
in a timeout and the CONN is retransmitted, yet `estimated_rtt` is not
inflated to `round(1.2 x 100) = 120` — it is still 100 (no inflation code
exists in `connect_to_remote`). -/
theorem c5_counterexample :
    (connect_to_remote 11 1 initialConn [ConnEvent.timeout]).conn.estimated_rtt
      ≠ 120 := by decide

/-- Claim C5 as amended: when a wait in `connect_to_remote` ends in a
timeout the engine retries the CONN transmission without modifying the
RTT estimate; `connect_to_remote` never changes `estimated_rtt` on any
trace. -/
theorem c5_amended (ewb connTag : Nat) (c : Conn) (tr : List ConnEvent) :
    (connect_to_remote ewb connTag c tr).conn.estimated_rtt =
      c.estimated_rtt := by
  unfold connect_to_remote
  split
  · exact (connectLoop_conn tr ewb connTag c 0 []).1
  · rfl

/-- On a pure-timeout trace the `accept_connection` loop resets its
attempt counter on every iteration (`recv` returns -1, which differs from
`EWOULDBLOCK`, so the branch runs and its first statement is
`attempts = 0`), hence the fatal exit is unreachable. -/
theorem acceptLoop_all_timeouts (n : Nat) :
    ∀ (ewb atag : Nat) (c : Conn) (touts : List Nat),
    (acceptLoop ewb atag c 0 touts (List.replicate n AccEvent.timeout)).result
      ≠ PResult.fatalMaxAttempts := by
  induction n with
  | zero =>
    intro ewb atag c touts
    simp only [List.replicate, acceptLoop]
    rw [if_neg (by omega)]
    exact fun h => PResult.noConfusion h
  | succ k ih =>
    intro ewb atag c touts
    rw [List.replicate_succ]
    simp only [acceptLoop]
    rw [if_neg (by omega)]
    split
    · exact fun h => PResult.noConfusion h
    · exact ih _ _ _ _

/-- Claim C6, code evaluated at the failing input: when every wait for the
final handshake ACK ends in a timeout, `accept_connection` never reaches
its fatal `Maximum attempts reached` exit, for any number `n` of
consecutive timeouts, any `EWOULDBLOCK` value and any tag encoding — the
attempt counter is reset to 0 each iteration, so the claimed 10-attempt
budget is unenforced on this procedure. -/
theorem c6_accept_budget_unenforced (n ewb connTag ackTag : Nat) :
    (accept_connection ewb connTag ackTag initialConn connTag
        (List.replicate n AccEvent.timeout)).result ≠
      PResult.fatalMaxAttempts := by
  unfold accept_connection
  rw [if_pos (show initialConn.state = ConnState.init from rfl), if_pos rfl]
  exact acceptLoop_all_timeouts n ewb ackTag initialConn []

/-- Claim C7, counterexample (negation at a concrete input): invoking
`connect_to_remote` on an ESTABLISHED connection does not abort — it
returns as a no-op with the connection unchanged, while the claim says
both handshake procedures abort the process. -/
theorem c7_counterexample :
    (connect_to_remote 11 1 senderConn []).result = PResult.noopReturn ∧
    (connect_to_remote 11 1 senderConn []).result ≠
      PResult.fatalInvalidState ∧
    (connect_to_remote 11 1 senderConn []).conn = senderConn := by decide

/-- Claim C7 as amended: on a connection whose state is not INIT,
`accept_connection` fails fatally (InvalidState abort), while
`connect_to_remote` prints a diagnostic and returns immediately without
aborting and without modifying the connection. -/
theorem c7_amended (ewb connTag ackTag firstTag : Nat) (c : Conn)
    (trA : List AccEvent) (trC : List ConnEvent)
    (h : c.state ≠ ConnState.init) :
    (accept_connection ewb connTag ackTag c firstTag trA).result =
      PResult.fatalInvalidState ∧
    (connect_to_remote ewb connTag c trC).result = PResult.noopReturn ∧
    (connect_to_remote ewb connTag c trC).conn = c := by
  unfold accept_connection connect_to_remote
  rw [if_neg h, if_neg h]
  exact ⟨rfl, rfl, rfl⟩

/-- Witness for `c7_amended` at a concrete non-INIT connection. -/
theorem c7_witness :
    senderConn.state ≠ ConnState.init ∧
    ((accept_connection 11 0 1 senderConn 0 []).result =
        PResult.fatalInvalidState ∧
      (connect_to_remote 11 0 senderConn []).result = PResult.noopReturn ∧
      (connect_to_remote 11 0 senderConn []).conn = senderConn) :=
  ⟨by decide, c7_amended 11 0 1 0 senderConn [] [] (by decide)⟩

/-- Behaviour of the `close_connection` loop: the endpoint is released on
every completed path, CLOSED is set exactly on the CLOSE/ACK success
paths, exhaustion preserves the entry state, and at most 6 CLOSE segments
are transmitted (`timeouts > 5` guard). -/
theorem closeLoop_behavior (tr : List ClEvent) :
    ∀ (c : Conn) (n sends : Nat) (touts : List Nat),
    c.state = ConnState.established → n ≤ 6 → sends ≤ n →
    ((closeLoop c n touts sends tr).result ≠ PResult.outOfTrace →
      (closeLoop c n touts sends tr).released = true) ∧
    ((closeLoop c n touts sends tr).conn.state = ConnState.closed ↔
      ((closeLoop c n touts sends tr).result = PResult.closedViaClose ∨
        (closeLoop c n touts sends tr).result = PResult.closedViaAck)) ∧
    ((closeLoop c n touts sends tr).result = PResult.exhausted →
      (closeLoop c n touts sends tr).conn.state = ConnState.established) ∧
    (closeLoop c n touts sends tr).sends ≤ 6 := by
  induction tr with
  | nil =>
    intro c n sends touts hst hn hs
    simp only [closeLoop]
    split
    · refine ⟨fun _ => rfl, ?_, fun _ => hst, by show sends ≤ 6; omega⟩
      constructor
      · intro hcl; rw [hst] at hcl; cases hcl
      · rintro (h | h) <;> cases h
    · refine ⟨fun hh => absurd rfl hh, ?_, fun hh => PResult.noConfusion hh,
        by show sends + 1 ≤ 6; omega⟩
      constructor
      · intro hcl; rw [hst] at hcl; cases hcl
      · rintro (h | h) <;> cases h
  | cons e tr ih =>
    intro c n sends touts hst hn hs
    cases e with
    | timeout =>
      simp only [closeLoop]
      split
      · refine ⟨fun _ => rfl, ?_, fun _ => hst, by show sends ≤ 6; omega⟩
        constructor
        · intro hcl; rw [hst] at hcl; cases hcl
        · rintro (h | h) <;> cases h
      · exact ih { c with estimated_rtt := inflateRtt c.estimated_rtt }
          (n + 1) (sends + 1)
          (touts ++ [timeoutUncapped (inflateRtt c.estimated_rtt)]) hst
          (by omega) (by omega)
    | recv t =>
      simp only [closeLoop]
      split
      · refine ⟨fun _ => rfl, ?_, fun _ => hst, by show sends ≤ 6; omega⟩
        constructor
        · intro hcl; rw [hst] at hcl; cases hcl
        · rintro (h | h) <;> cases h
      · cases t
        · exact ih _ _ _ _ hst (by omega) (by omega)
        · exact ⟨fun _ => rfl, ⟨fun _ => Or.inr rfl, fun _ => rfl⟩,
            fun hh => PResult.noConfusion hh, by show sends + 1 ≤ 6; omega⟩
        · exact ih _ _ _ _ hst (by omega) (by omega)
        · exact ⟨fun _ => rfl, ⟨fun _ => Or.inl rfl, fun _ => rfl⟩,
            fun hh => PResult.noConfusion hh, by show sends + 1 ≤ 6; omega⟩

/-- Claim C8, counterexample: the guard `timeouts > 5` admits 6 loop
iterations, so after five timeouts an ACK arriving on the sixth attempt
still sets CLOSED (6 CLOSE segments were sent) — under the claimed
5-attempt budget this run would have exhausted and left ESTABLISHED. -/
theorem c8_counterexample :
    (close_connection senderConn [ClEvent.timeout, ClEvent.timeout,
        ClEvent.timeout, ClEvent.timeout, ClEvent.timeout,
        ClEvent.recv RDTType.ack]).conn.state = ConnState.closed ∧
    (close_connection senderConn [ClEvent.timeout, ClEvent.timeout,
        ClEvent.timeout, ClEvent.timeout, ClEvent.timeout,
        ClEvent.recv RDTType.ack]).sends = 6 := by decide

/-- Claim C8 as amended: `close_connection` releases the endpoint on every
completed path; state is set to CLOSED exactly when a CLOSE (answered with
an ACK) or an ACK segment is received within the 6 loop iterations the
`timeouts > 5` guard admits, and exhausting them leaves state ESTABLISHED
while still releasing the endpoint. -/
theorem c8_amended (c : Conn) (tr : List ClEvent)
    (h : c.state = ConnState.established) :
    ((close_connection c tr).result ≠ PResult.outOfTrace →
      (close_connection c tr).released = true) ∧
    ((close_connection c tr).conn.state = ConnState.closed ↔
      ((close_connection c tr).result = PResult.closedViaClose ∨
        (close_connection c tr).result = PResult.closedViaAck)) ∧
    ((close_connection c tr).result = PResult.exhausted →
      (close_connection c tr).conn.state = ConnState.established) ∧
    (close_connection c tr).sends ≤ 6 := by
  unfold close_connection
  exact closeLoop_behavior tr c 0 0 _ h (by omega) (by omega)

/-- Witness for `c8_amended` at a concrete input: a single ACK reply. -/
theorem c8_witness :
    senderConn.state = ConnState.established ∧
    (((close_connection senderConn [ClEvent.recv RDTType.ack]).result ≠
          PResult.outOfTrace →
        (close_connection senderConn [ClEvent.recv RDTType.ack]).released =
          true) ∧
      ((close_connection senderConn [ClEvent.recv RDTType.ack]).conn.state =
          ConnState.closed ↔
        ((close_connection senderConn [ClEvent.recv RDTType.ack]).result =
            PResult.closedViaClose ∨
          (close_connection senderConn [ClEvent.recv RDTType.ack]).result =
            PResult.closedViaAck)) ∧
      ((close_connection senderConn [ClEvent.recv RDTType.ack]).result =
          PResult.exhausted →
        (close_connection senderConn [ClEvent.recv RDTType.ack]).conn.state =
          ConnState.established) ∧
      (close_connection senderConn [ClEvent.recv RDTType.ack]).sends ≤ 6) :=
  ⟨rfl, c8_amended senderConn [ClEvent.recv RDTType.ack] rfl⟩

/-- Claim C9: in `receive_data` on an ESTABLISHED connection, an inbound
DATA segment whose sequence number is strictly below
`expected_sequence_number` and strictly above 0 is re-acknowledged with
its own sequence number, is not delivered, changes nothing, and the wait
continues with the rest of the trace. -/
theorem c9_duplicate_reack (c : Conn) (sq len : Nat) (tr : List RcvEvent)
    (hs : c.state = ConnState.established)
    (hlt : sq < c.expected_sequence_number) (hpos : 0 < sq) :
    receive_data c (RcvEvent.seg RDTType.data sq len :: tr) =
      { conn := (receive_data c tr).conn
        result := (receive_data c tr).result
        acks := sq :: (receive_data c tr).acks } := by
  have hgate : ∀ tr2, receive_data c tr2 = receiveLoop c tr2 := by
    intro tr2; unfold receive_data; rw [if_pos hs]
  rw [hgate (RcvEvent.seg RDTType.data sq len :: tr), hgate tr]
  simp only [receiveLoop]
  rw [if_neg (fun h => absurd h.2 (Nat.ne_of_gt hlt)),
    if_pos ⟨trivial, hlt, hpos⟩]

/-- Witness for `c9_duplicate_reack`: the receiver expecting sequence 5
sees a stale DATA segment with sequence 3. -/
theorem c9_witness :
    (recvConn.state = ConnState.established ∧
      3 < recvConn.expected_sequence_number ∧ 0 < 3) ∧
    receive_data recvConn [RcvEvent.seg RDTType.data 3 20] =
      { conn := (receive_data recvConn []).conn
        result := (receive_data recvConn []).result
        acks := 3 :: (receive_data recvConn []).acks } :=
  ⟨⟨rfl, by decide, by decide⟩,
    c9_duplicate_reack recvConn 3 20 [] rfl (by decide) (by decide)⟩

/-- Counters through the `send_data` loop: the sequence number grows by at
most one and the expected sequence number is untouched. -/
theorem sendDataLoop_counters (tr : List SdEvent) :
    ∀ (c : Conn) (a : Nat) (touts : List Nat),
    c.sequence_number ≤ (sendDataLoop c a touts tr).conn.sequence_number ∧
    (sendDataLoop c a touts tr).conn.sequence_number ≤
      c.sequence_number + 1 ∧
    (sendDataLoop c a touts tr).conn.expected_sequence_number =
      c.expected_sequence_number := by
  induction tr with
  | nil =>
    intro c a touts
    simp only [sendDataLoop]
    split <;> exact ⟨Nat.le_refl _, Nat.le_succ _, rfl⟩
  | cons e tr ih =>
    intro c a touts
    cases e with
    | timeout =>
      simp only [sendDataLoop]
      split
      · exact ⟨Nat.le_refl _, Nat.le_succ _, rfl⟩
      · exact ih { c with estimated_rtt := inflateRtt c.estimated_rtt } a
          (touts ++ [timeoutCapped (inflateRtt c.estimated_rtt)])
    | recv ty ackRaw s =>
      simp only [sendDataLoop]
      split
      · exact ⟨Nat.le_refl _, Nat.le_succ _, rfl⟩
      · split
        · exact ⟨Nat.le_succ _, Nat.le_refl _, rfl⟩
        · exact ih _ _ _

/-- Counters through the `accept_connection` loop: the expected sequence
number grows by at most one and the sequence number is untouched. -/
theorem acceptLoop_counters (tr : List AccEvent) :
    ∀ (ewb atag : Nat) (c : Conn) (a : Nat) (touts : List Nat),
    c.expected_sequence_number ≤
      (acceptLoop ewb atag c a touts tr).conn.expected_sequence_number ∧
    (acceptLoop ewb atag c a touts tr).conn.expected_sequence_number ≤
      c.expected_sequence_number + 1 ∧
    (acceptLoop ewb atag c a touts tr).conn.sequence_number =
      c.sequence_number := by
  induction tr with
  | nil =>
    intro ewb atag c a touts
    simp only [acceptLoop]
    split <;> exact ⟨Nat.le_refl _, Nat.le_succ _, rfl⟩
  | cons e tr ih =>
    intro ewb atag c a touts
    cases e with
    | timeout =>
      simp only [acceptLoop]
      split
      · exact ⟨Nat.le_refl _, Nat.le_succ _, rfl⟩
      · split
        · exact ⟨Nat.le_succ _, Nat.le_refl _, rfl⟩
        · exact ih _ _ _ _ _
    | recvBytes n tag =>
      simp only [acceptLoop]
      split
      · exact ⟨Nat.le_refl _, Nat.le_succ _, rfl⟩
      · split
        · exact ih _ _ _ _ _
        · split
          · exact ⟨Nat.le_succ _, Nat.le_refl _, rfl⟩
          · exact ih _ _ _ _ _

/-- Counters through the `receive_data` loop: the expected sequence number
grows by at most one and the sequence number is untouched. -/
theorem receiveLoop_counters (tr : List RcvEvent) : ∀ (c : Conn),
    c.expected_sequence_number ≤
      (receiveLoop c tr).conn.expected_sequence_number ∧
    (receiveLoop c tr).conn.expected_sequence_number ≤
      c.expected_sequence_number + 1 ∧
    (receiveLoop c tr).conn.sequence_number = c.sequence_number := by
  induction tr with
  | nil => intro c; exact ⟨Nat.le_refl _, Nat.le_succ _, rfl⟩
  | cons e tr ih =>
    intro c
    cases e with
    | timeout => exact ⟨Nat.le_refl _, Nat.le_succ _, rfl⟩
    | seg t sq len =>
      simp only [receiveLoop]
      split
      · exact ⟨Nat.le_succ _, Nat.le_refl _, rfl⟩
      · split
        · exact ih c
        · split
          · exact ⟨Nat.le_refl _, Nat.le_succ _, rfl⟩
          · exact ih c

/-- Counters through the `close_connection` loop: both sequence counters
are untouched. -/
theorem closeLoop_counters (tr : List ClEvent) :
    ∀ (c : Conn) (n sends : Nat) (touts : List Nat),
    (closeLoop c n touts sends tr).conn.sequence_number =
      c.sequence_number ∧
    (closeLoop c n touts sends tr).conn.expected_sequence_number =
      c.expected_sequence_number := by
  induction tr with
  | nil =>
    intro c n sends touts
    simp only [closeLoop]
    split <;> exact ⟨rfl, rfl⟩
  | cons e tr ih =>
    intro c n sends touts
    cases e with
    | timeout =>
      simp only [closeLoop]
      split
      · exact ⟨rfl, rfl⟩
      · exact ih _ _ _ _
    | recv t =>
      simp only [closeLoop]
      split
      · exact ⟨rfl, rfl⟩
      · cases t
        · exact ih _ _ _ _
        · exact ⟨rfl, rfl⟩
        · exact ih _ _ _ _
        · exact ⟨rfl, rfl⟩

/-- Claim C10: across every public operation the `sequence_number` and
`expected_sequence_number` counters never decrease, and one call increases
each counter by at most 1 (connect and send touch only the sequence
number, accept and receive only the expected sequence number, close
neither). -/
theorem c10_counters_monotone (ewb connTag ackTag firstTag : Nat) (c : Conn)
    (trC : List ConnEvent) (trA : List AccEvent) (trS : List SdEvent)
    (trR : List RcvEvent) (trCl : List ClEvent) :
    (c.sequence_number ≤
        (connect_to_remote ewb connTag c trC).conn.sequence_number ∧
      (connect_to_remote ewb connTag c trC).conn.sequence_number ≤
        c.sequence_number + 1 ∧
      (connect_to_remote ewb connTag c trC).conn.expected_sequence_number =
        c.expected_sequence_number) ∧
    (c.expected_sequence_number ≤
        (accept_connection ewb connTag ackTag c firstTag
          trA).conn.expected_sequence_number ∧
      (accept_connection ewb connTag ackTag c firstTag
          trA).conn.expected_sequence_number ≤
        c.expected_sequence_number + 1 ∧
      (accept_connection ewb connTag ackTag c firstTag
          trA).conn.sequence_number = c.sequence_number) ∧
    (c.sequence_number ≤ (send_data c trS).conn.sequence_number ∧
      (send_data c trS).conn.sequence_number ≤ c.sequence_number + 1 ∧
      (send_data c trS).conn.expected_sequence_number =
        c.expected_sequence_number) ∧
    (c.expected_sequence_number ≤
        (receive_data c trR).conn.expected_sequence_number ∧
      (receive_data c trR).conn.expected_sequence_number ≤
        c.expected_sequence_number + 1 ∧
      (receive_data c trR).conn.sequence_number = c.sequence_number) ∧
    ((close_connection c trCl).conn.sequence_number = c.sequence_number ∧
      (close_connection c trCl).conn.expected_sequence_number =
        c.expected_sequence_number) := by
  refine ⟨?_, ?_, ?_, ?_, ?_⟩
  · unfold connect_to_remote
    split
    · have h := connectLoop_conn trC ewb connTag c 0 []
      exact ⟨h.2.2.1, h.2.2.2, h.2.1⟩
    · exact ⟨Nat.le_refl _, Nat.le_succ _, rfl⟩
  · unfold accept_connection
    split
    · split
      · exact acceptLoop_counters trA ewb ackTag c 0 []
      · exact ⟨Nat.le_refl _, Nat.le_succ _, rfl⟩
    · exact ⟨Nat.le_refl _, Nat.le_succ _, rfl⟩
  · unfold send_data
    split
    · exact sendDataLoop_counters trS c 0 _
    · exact ⟨Nat.le_refl _, Nat.le_succ _, rfl⟩
  · unfold receive_data
    split
    · exact receiveLoop_counters trR c
    · exact ⟨Nat.le_refl _, Nat.le_succ _, rfl⟩
  · unfold close_connection
    exact closeLoop_counters trCl c 0 0 _

end RDT
